import Mathlib

/-!
# Formal model of the 2DVectorGraphics interactive canvas core

This file gives a shallow embedding, in Lean 4, of the interaction core of
the 2DVectorGraphics repository (`main.py` and the thin
`main_app/session/session.py` wrapper): the shape registry, the circle and
square hit-tests, the drag controller, the press/drag/release state machine
of `Scene.mouse_action`, and the toolbar dispatcher of
`DrawArea.mouse_button_callback` / `Toolbar`.

Python's mutable objects are modelled by explicit state passing: each
handler becomes a pure function from the old state to the new state
(together with its return value).  Object identity of shapes — Python keeps
direct references from `Scene.selected` and `draggable.shape` to the shape
objects stored in `Scene.shapes` — is modelled by a numeric `id` field
(`uuid.uuid4()` in the source) through which the session state refers to
registry entries.  Float coordinates are modelled as rationals, and the
square root in `Shape.contains` (`** 0.5`) as `Real.sqrt` over their
embedding into `ℝ`.  A Python call that raises (`list.remove` on a missing
element) is modelled by an `Option` result, `none` standing for an escaped
`ValueError`.
-/

namespace VectorGraphics

/-- Modelled from the spec: `vec2` from the external `shared_python`
geometry dependency is a Point, "a 2D coordinate (x, y)".  Coordinates are
modelled as rationals. -/
structure Vec2 where
  x : ℚ
  y : ℚ
deriving DecidableEq

/-- Modelled from the spec: vector difference `pos - self.current_pos`
used by `draggable.work` to compute the drag delta (componentwise). -/
def Vec2.sub (a b : Vec2) : Vec2 := ⟨a.x - b.x, a.y - b.y⟩

/-- Modelled from the spec: the in-place `vec2.translate` used by
`Shape.translate` — componentwise addition of an offset. -/
def Vec2.translate (a d : Vec2) : Vec2 := ⟨a.x + d.x, a.y + d.y⟩

/-- `WIDTH` constant of `main.py`. -/
def WIDTH : ℤ := 640

/-- `HEIGHT` constant of `main.py`. -/
def HEIGHT : ℤ := 480

/-- `UI_TOP_BAR_HEIGHT` constant of `main.py`. -/
def UI_TOP_BAR_HEIGHT : ℤ := 32

/-- `BUTTON_SIZE` constant of `main.py`. -/
def BUTTON_SIZE : ℤ := 20

/-- `BUTTON_MARGIN` constant of `main.py`. -/
def BUTTON_MARGIN : ℤ := 6

/-- The `MOUSE_ACTION` enum of `main.py`. -/
inductive MOUSE_ACTION where
  | LEFT_CLICK_DOWN
  | LEFT_CLICK_DRAG
  | LEFT_CLICK_UP
  | RIGHT_CLICK_DOWN
deriving DecidableEq

/-- The `Shape` class of `main.py`: a circle with a center position
(mutable), a radius, a color, and an identity assigned at creation
(`uuid.uuid4()` in the source, modelled as a natural number). -/
structure Shape where
  id : ℕ
  pos : Vec2
  radius : ℚ
  color : ℕ
deriving DecidableEq

/-- `Shape.contains` of `main.py`:
`((pos.x - self.pos.x) ** 2 + (pos.y - self.pos.y) ** 2) ** 0.5 <= self.radius`,
i.e. the Euclidean distance from the query point to the center is at most
the radius (boundary inclusive). -/
def Shape.contains (s : Shape) (p : Vec2) : Prop :=
  Real.sqrt (((p.x - s.pos.x : ℚ) : ℝ) ^ 2 + ((p.y - s.pos.y : ℚ) : ℝ) ^ 2)
    ≤ (s.radius : ℝ)

/-- The square-root containment test is equivalent to a squared-distance
comparison over the rationals (using that the radicand is a sum of
squares). -/
theorem Shape.contains_iff (s : Shape) (p : Vec2) :
    s.contains p ↔
      0 ≤ s.radius ∧
        (p.x - s.pos.x) ^ 2 + (p.y - s.pos.y) ^ 2 ≤ s.radius ^ 2 := by
  rw [Shape.contains, Real.sqrt_le_iff]
  constructor
  · rintro ⟨h1, h2⟩
    exact ⟨by exact_mod_cast h1, by exact_mod_cast h2⟩
  · rintro ⟨h1, h2⟩
    exact ⟨by exact_mod_cast h1, by exact_mod_cast h2⟩

instance (s : Shape) (p : Vec2) : Decidable (s.contains p) :=
  decidable_of_iff _ (s.contains_iff p).symm

/-- `Shape.translate` of `main.py`: moves the center in place by the given
offset (`self.pos.translate(pos)`). -/
def Shape.translate (s : Shape) (d : Vec2) : Shape :=
  { s with pos := s.pos.translate d }

/-- The `draggable` class of `main.py`: the active drag session.  It stores
the last known pointer position and a reference (modelled by id) to the
shape being dragged. -/
structure Draggable where
  current_pos : Vec2
  shape : ℕ
deriving DecidableEq

/-- The `Scene` class of `main.py`: the shape registry (`shapes`, in
insertion order) together with the interaction session state — the selected
shape and the active drag session, each optional and held by reference
(modelled by id). -/
structure Scene where
  shapes : List Shape
  draggable : Option Draggable
  selected : Option ℕ
deriving DecidableEq

/-- `Scene.__init__`: empty registry, no drag session, no selection. -/
def Scene.init : Scene := ⟨[], none, none⟩

/-- `Scene.add_shape`: appends to the registry sequence. -/
def Scene.add_shape (sc : Scene) (s : Shape) : Scene :=
  { sc with shapes := sc.shapes ++ [s] }

/-- `list.remove` on the registry sequence: removes the first entry with
the given identity; `none` models the `ValueError` Python raises when no
entry matches. -/
def removeFirst : List Shape → ℕ → Option (List Shape)
  | [], _ => none
  | s :: rest, i =>
      if s.id = i then some rest
      else (removeFirst rest i).map (fun l => s :: l)

/-- `Scene.remove_shape` of `main.py`: `self.shapes.remove(shape)`.  It
touches only the registry sequence (never `selected` or `draggable`), and
`none` models the escaping `ValueError` when the shape is absent, in which
case no state changes. -/
def Scene.remove_shape (sc : Scene) (i : ℕ) : Option Scene :=
  (removeFirst sc.shapes i).map (fun l => { sc with shapes := l })

/-- The `for this_shape in self.shapes` loop in the `LEFT_CLICK_DOWN`
branch of `Scene.mouse_action`: returns the id of the first shape, in
insertion order, whose containment test succeeds. -/
def hitLoop : List Shape → Vec2 → Option ℕ
  | [], _ => none
  | s :: rest, pos => if s.contains pos then some s.id else hitLoop rest pos

/-- In-place mutation of the referenced shape (`self.shape.translate`):
translates the first registry entry carrying the given id; a dangling id
leaves the registry unchanged (Python would mutate a detached object). -/
def translateFirst : List Shape → ℕ → Vec2 → List Shape
  | [], _, _ => []
  | s :: rest, i, d =>
      if s.id = i then s.translate d :: rest
      else s :: translateFirst rest i d

/-- `draggable.work` of `main.py`: computes
`distance = pos - self.current_pos`, advances `current_pos` to `pos`, and
reports the distance by which the referenced shape is translated. -/
def Draggable.work (d : Draggable) (pos : Vec2) : Draggable × Vec2 :=
  (⟨pos, d.shape⟩, pos.sub d.current_pos)

/-- `Scene.mouse_action` of `main.py`: the press/drag/release state
machine.  Returns the new scene and the Python return value
(`some true` on a selecting press, `some false` on a drag with no
selection, `none` for Python's implicit `None` on every other path). -/
def Scene.mouse_action (sc : Scene) (action : MOUSE_ACTION) (pos : Vec2) :
    Scene × Option Bool :=
  match action with
  | .LEFT_CLICK_DOWN =>
      match sc.selected with
      | none =>
          match hitLoop sc.shapes pos with
          | some i => ({ sc with selected := some i }, some true)
          | none => (sc, none)
      | some _ => (sc, none)
  | .LEFT_CLICK_DRAG =>
      match sc.selected with
      | none => (sc, some false)
      | some selId =>
          match sc.draggable with
          | none => ({ sc with draggable := some ⟨pos, selId⟩ }, none)
          | some d =>
              let r := d.work pos
              ({ sc with
                  shapes := translateFirst sc.shapes d.shape r.2,
                  draggable := some r.1 }, none)
  | .LEFT_CLICK_UP => ({ sc with draggable := none, selected := none }, none)
  | .RIGHT_CLICK_DOWN => (sc, none)

/-- The `Session` wrapper of `main_app/session/session.py`: it owns a
`Scene` and forwards `add_shape`, `remove_shape` and `mouse_action` to it
unchanged. -/
structure Session where
  scene : Scene
deriving DecidableEq

/-- `Session.remove_shape`: delegates to `Scene.remove_shape`. -/
def Session.remove_shape (s : Session) (i : ℕ) : Option Session :=
  (s.scene.remove_shape i).map (fun sc => ⟨sc⟩)

/-- The `Button` class of `main.py`: square UI control with a position
(initialised to `None` in Python and assigned by the toolbar layout before
any use), a side length, a color, a transient `clicked` flag and a
`selected` toggle flag.  The `id` string parameter of the Python
constructor is discarded by the constructor body, so it is not a field. -/
structure Button where
  pos : Vec2
  size : ℚ
  color : ℕ
  clicked : Bool
  selected : Bool
deriving DecidableEq

/-- A freshly constructed button (`Button.__init__`): flags cleared, the
position still the placeholder that layout overwrites. -/
def Button.init (size : ℚ) (color : ℕ) : Button :=
  ⟨⟨0, 0⟩, size, color, false, false⟩

/-- `Button.hit_test` of `main.py`: axis-aligned square containment,
`self.pos.x <= pos.x <= self.pos.x + self.size` and the same on `y`
(boundary inclusive on both axes). -/
def Button.hit_test (b : Button) (p : Vec2) : Prop :=
  b.pos.x ≤ p.x ∧ p.x ≤ b.pos.x + b.size ∧
    b.pos.y ≤ p.y ∧ p.y ≤ b.pos.y + b.size

instance (b : Button) (p : Vec2) : Decidable (b.hit_test p) :=
  inferInstanceAs (Decidable (b.pos.x ≤ p.x ∧ p.x ≤ b.pos.x + b.size ∧
    b.pos.y ≤ p.y ∧ p.y ≤ b.pos.y + b.size))

/-- `Button.click` of `main.py`: flips the `selected` toggle flag. -/
def Button.click (b : Button) : Button :=
  { b with selected := !b.selected }

/-- The `for i, btn in enumerate(self.buttons)` loop of
`Toolbar._create_button_positions`: button `i` is placed at
`x = start_x + i * (BUTTON_SIZE + BUTTON_MARGIN)`. -/
def assignPositions (startX y : ℤ) : ℕ → List Button → List Button
  | _, [] => []
  | i, b :: rest =>
      { b with
          pos := ⟨((startX + i * (BUTTON_SIZE + BUTTON_MARGIN) : ℤ) : ℚ),
                  ((y : ℤ) : ℚ)⟩ } :: assignPositions startX y (i + 1) rest

/-- `Toolbar._create_button_positions` of `main.py`: computed from the
button count, `BUTTON_SIZE`, `BUTTON_MARGIN` and `WIDTH`;
`button_width = BUTTON_SIZE * n + BUTTON_MARGIN * (n + 1)`,
`start_x = (WIDTH - button_width) // 2` (Python floor division, i.e.
`Int.fdiv`), `y = (UI_TOP_BAR_HEIGHT - BUTTON_SIZE) // 2`. -/
def create_button_positions (btns : List Button) : List Button :=
  let n : ℤ := btns.length
  let button_width := BUTTON_SIZE * n + BUTTON_MARGIN * (n + 1)
  let startX := Int.fdiv (WIDTH - button_width) 2
  let y := Int.fdiv (UI_TOP_BAR_HEIGHT - BUTTON_SIZE) 2
  assignPositions startX y 0 btns

/-- The `Toolbar` class of `main.py`: a fixed position and the ordered
button list. -/
structure Toolbar where
  pos : Vec2
  buttons : List Button
deriving DecidableEq

/-- `Toolbar.__init__`: stores the buttons and runs
`_create_button_positions` once, at construction. -/
def Toolbar.init (pos : Vec2) (btns : List Button) : Toolbar :=
  ⟨pos, create_button_positions btns⟩

/-- The `for btn in self.buttons` loop of `Toolbar.hit_test`: Python
returns the first button (in toolbar order) whose square hit-test
succeeds, or `None`; we return the index of that button so that the
caller's mutation of it can be expressed. -/
def hitIdx : List Button → Vec2 → Option ℕ
  | [], _ => none
  | b :: rest, pos =>
      if b.hit_test pos then some 0 else (hitIdx rest pos).map (· + 1)

/-- `Toolbar.hit_test` of `main.py` (index form). -/
def Toolbar.hit_test (tb : Toolbar) (pos : Vec2) : Option ℕ :=
  hitIdx tb.buttons pos

/-- The effect of `clicked_button.click()` on the toolbar's button list:
the button at the matched index is toggled in place. -/
def clickAt : List Button → ℕ → List Button
  | [], _ => []
  | b :: rest, 0 => b.click :: rest
  | b :: rest, n + 1 => b :: clickAt rest n

/-- The mouse-button identifiers delivered by glfw that `main.py`
distinguishes. -/
inductive GlfwButton where
  | left
  | right
deriving DecidableEq

/-- The press/release actions delivered by glfw. -/
inductive GlfwAction where
  | press
  | release
deriving DecidableEq

/-- The `DrawArea` class of `main.py`: the scene plus the toolbar
(constructed with the "select" and "delete" buttons, both of side
`BUTTON_SIZE`). -/
structure DrawArea where
  scene : Scene
  toolbar : Toolbar
deriving DecidableEq

/-- `DrawArea.__init__`: a fresh scene and the two-button toolbar at
`vec2(0, HEIGHT - UI_TOP_BAR_HEIGHT)`. -/
def DrawArea.init : DrawArea :=
  ⟨Scene.init,
   Toolbar.init ⟨0, ((HEIGHT - UI_TOP_BAR_HEIGHT : ℤ) : ℚ)⟩
     [Button.init (BUTTON_SIZE : ℤ) 200, Button.init (BUTTON_SIZE : ℤ) 200]⟩

/-- `DrawArea.mouse_button_callback` of `main.py`.  On a left press the
toolbar is hit-tested first; a matching button is clicked and the scene is
never consulted; otherwise the press is forwarded to
`Scene.mouse_action`.  A left release is forwarded as `LEFT_CLICK_UP`.  A
right release adds a new `Shape(pos, 40, color)`; its `uuid.uuid4()`
identity is modelled by the `fresh` parameter. -/
def DrawArea.mouse_button_callback (da : DrawArea) (fresh : ℕ)
    (button : GlfwButton) (action : GlfwAction) (pos : Vec2) : DrawArea :=
  match button, action with
  | .left, .press =>
      match da.toolbar.hit_test pos with
      | some i =>
          { da with toolbar := ⟨da.toolbar.pos, clickAt da.toolbar.buttons i⟩ }
      | none =>
          { da with scene := (da.scene.mouse_action .LEFT_CLICK_DOWN pos).1 }
  | .left, .release =>
      { da with scene := (da.scene.mouse_action .LEFT_CLICK_UP pos).1 }
  | .right, .release =>
      { da with scene := da.scene.add_shape ⟨fresh, pos, 40, 0⟩ }
  | .right, .press => da

/-- A sequence of drag events (`cursor_pos_callback` with the left button
held forwards each pointer position as `LEFT_CLICK_DRAG`), folded through
the state machine; only the resulting scene is observed. -/
def dragSteps (sc : Scene) (ps : List Vec2) : Scene :=
  ps.foldl (fun s p => (s.mouse_action .LEFT_CLICK_DRAG p).1) sc

/-- The operations a caller can apply to a `Scene`: a mouse gesture, an
`add_shape`, or a `remove_shape`. -/
inductive SceneEvent where
  | mouse (a : MOUSE_ACTION) (p : Vec2)
  | add (s : Shape)
  | remove (i : ℕ)

/-- One event applied to the scene.  A `remove` of an absent id raises in
Python before any mutation, so the scene is unchanged on that path. -/
def SceneEvent.step (sc : Scene) : SceneEvent → Scene
  | .mouse a p => (sc.mouse_action a p).1
  | .add s => sc.add_shape s
  | .remove i => (sc.remove_shape i).getD sc

/-- The session-consistency invariant: an active drag record exists only
while a selection exists, and it references the selected shape. -/
def SessionInv (sc : Scene) : Prop :=
  ∀ d, sc.draggable = some d → sc.selected = some d.shape

/-! ## Helper lemmas -/

theorem hitLoop_eq_none {l : List Shape} {pos : Vec2} :
    hitLoop l pos = none ↔ ∀ s ∈ l, ¬ s.contains pos := by
  induction l with
  | nil => simp [hitLoop]
  | cons s rest ih =>
      by_cases h : s.contains pos <;> simp [hitLoop, h, ih]

theorem hitLoop_append_first {l1 l2 : List Shape} {A : Shape} {pos : Vec2}
    (h1 : ∀ s ∈ l1, ¬ s.contains pos) (hA : A.contains pos) :
    hitLoop (l1 ++ A :: l2) pos = some A.id := by
  induction l1 with
  | nil => simp [hitLoop, hA]
  | cons s rest ih =>
      have hs : ¬ s.contains pos := h1 s (by simp)
      simp only [List.cons_append, hitLoop, if_neg hs]
      exact ih (fun t ht => h1 t (by simp [ht]))

theorem removeFirst_eq_none {l : List Shape} {i : ℕ} :
    removeFirst l i = none ↔ ∀ s ∈ l, s.id ≠ i := by
  induction l with
  | nil => simp [removeFirst]
  | cons s rest ih =>
      by_cases h : s.id = i <;> simp [removeFirst, h, ih]

theorem removeFirst_append {l1 l2 : List Shape} {A : Shape} {i : ℕ}
    (h1 : ∀ s ∈ l1, s.id ≠ i) (hA : A.id = i) :
    removeFirst (l1 ++ A :: l2) i = some (l1 ++ l2) := by
  induction l1 with
  | nil => simp [removeFirst, hA]
  | cons s rest ih =>
      have hs : s.id ≠ i := h1 s (by simp)
      simp only [List.cons_append, removeFirst, if_neg hs, List.append_eq]
      rw [ih (fun t ht => h1 t (by simp [ht]))]
      simp

theorem translateFirst_append {l1 l2 : List Shape} {A : Shape} {i : ℕ}
    {d : Vec2} (h1 : ∀ s ∈ l1, s.id ≠ i) (hA : A.id = i) :
    translateFirst (l1 ++ A :: l2) i d = l1 ++ A.translate d :: l2 := by
  induction l1 with
  | nil => simp [translateFirst, hA]
  | cons s rest ih =>
      have hs : s.id ≠ i := h1 s (by simp)
      simp only [List.cons_append, translateFirst, if_neg hs, List.append_eq]
      rw [ih (fun t ht => h1 t (by simp [ht]))]

theorem Shape.translate_translate (s : Shape) (u v : Vec2) :
    (s.translate u).translate v = s.translate ⟨u.x + v.x, u.y + v.y⟩ := by
  simp only [Shape.translate, Vec2.translate]
  ring_nf

theorem Shape.translate_id (s : Shape) (u : Vec2) : (s.translate u).id = s.id :=
  rfl

theorem Shape.translate_self_sub (A : Shape) (v : Vec2) :
    A.translate (v.sub v) = A := by
  obtain ⟨i, ⟨px, py⟩, r, c⟩ := A
  simp [Shape.translate, Vec2.translate, Vec2.sub]

theorem dragSteps_translate (qs : List Vec2) :
    ∀ (l1 l2 : List Shape) (A : Shape) (i : ℕ) (cur : Vec2),
      A.id = i → (∀ s ∈ l1, s.id ≠ i) →
      dragSteps ⟨l1 ++ A :: l2, some ⟨cur, i⟩, some i⟩ qs
        = ⟨l1 ++ A.translate ((qs.getLastD cur).sub cur) :: l2,
            some ⟨qs.getLastD cur, i⟩, some i⟩ := by
  induction qs with
  | nil =>
      intro l1 l2 A i cur hA h1
      simp [dragSteps, Shape.translate_self_sub]
  | cons p qs ih =>
      intro l1 l2 A i cur hA h1
      have hstep :
          ((Scene.mk (l1 ++ A :: l2) (some ⟨cur, i⟩)
              (some i)).mouse_action .LEFT_CLICK_DRAG p).1
            = ⟨l1 ++ A.translate (p.sub cur) :: l2, some ⟨p, i⟩, some i⟩ := by
        simp [Scene.mouse_action, Draggable.work,
          translateFirst_append h1 hA]
      have hA' : (A.translate (p.sub cur)).id = i := by
        rw [Shape.translate_id]; exact hA
      calc dragSteps ⟨l1 ++ A :: l2, some ⟨cur, i⟩, some i⟩ (p :: qs)
          = dragSteps ⟨l1 ++ A.translate (p.sub cur) :: l2,
              some ⟨p, i⟩, some i⟩ qs := by
            simp only [dragSteps, List.foldl_cons, hstep]
        _ = ⟨l1 ++ (A.translate (p.sub cur)).translate
                ((qs.getLastD p).sub p) :: l2,
              some ⟨qs.getLastD p, i⟩, some i⟩ := ih l1 l2 _ i p hA' h1
        _ = ⟨l1 ++ A.translate (((p :: qs).getLastD cur).sub cur) :: l2,
              some ⟨(p :: qs).getLastD cur, i⟩, some i⟩ := by
            rw [List.getLastD_cons, Shape.translate_translate]
            have hv : (⟨(p.sub cur).x + ((qs.getLastD p).sub p).x,
                        (p.sub cur).y + ((qs.getLastD p).sub p).y⟩ : Vec2)
                = (qs.getLastD p).sub cur := by
              simp only [Vec2.sub, Vec2.mk.injEq]
              constructor <;> ring
            rw [hv]

/-! ## Claim theorems -/

/-- C1 (counterexample): shapes `A` (id 0, radius 10, inserted first) and
`B` (id 1, radius 5, inserted second) both contain the point `(0, 0)`, yet
a press there selects `A` — the loop in `Scene.mouse_action` walks
`self.shapes` in insertion order, so the *first*-inserted (bottom-most)
containing shape wins, not the most recently inserted one as claimed. -/
theorem press_selects_first_inserted_not_topmost :
    (Shape.mk 0 ⟨0, 0⟩ 10 0).contains ⟨0, 0⟩ ∧
    (Shape.mk 1 ⟨0, 0⟩ 5 0).contains ⟨0, 0⟩ ∧
    ((Scene.mk [⟨0, ⟨0, 0⟩, 10, 0⟩, ⟨1, ⟨0, 0⟩, 5, 0⟩] none
        none).mouse_action .LEFT_CLICK_DOWN ⟨0, 0⟩).1.selected = some 0 ∧
    (0 : ℕ) ≠ 1 := by
  refine ⟨?_, ?_, ?_, by norm_num⟩
  · rw [Shape.contains_iff]; norm_num
  · rw [Shape.contains_iff]; norm_num
  · norm_num [Scene.mouse_action, hitLoop, Shape.contains_iff]

/-- C1 (amended): the press-time hit-test walks the registry in *insertion*
order, so among overlapping shapes the first-inserted (bottom-most)
containing shape is selected and reported with `True`; when no shape
contains the point the scene is unchanged and Python's `None` is
returned. -/
theorem press_hit_insertion_order (sc : Scene) (pos : Vec2)
    (hsel : sc.selected = none) :
    (∀ l1 A l2, sc.shapes = l1 ++ A :: l2 → (∀ s ∈ l1, ¬ s.contains pos) →
        A.contains pos →
        sc.mouse_action .LEFT_CLICK_DOWN pos
          = ({ sc with selected := some A.id }, some true))
  ∧ ((∀ s ∈ sc.shapes, ¬ s.contains pos) →
        sc.mouse_action .LEFT_CLICK_DOWN pos = (sc, none)) := by
  constructor
  · intro l1 A l2 hsh h1 hA
    simp [Scene.mouse_action, hsel, hsh, hitLoop_append_first h1 hA]
  · intro h
    simp [Scene.mouse_action, hsel, hitLoop_eq_none.2 h]

/-- C1 (witness): a press at a point covered by both shapes selects the
first-inserted shape and reports `True`; a press in empty space leaves the
scene unchanged and reports `None`. -/
theorem press_hit_insertion_order_witness :
    (Scene.mk [⟨0, ⟨0, 0⟩, 10, 0⟩, ⟨1, ⟨0, 0⟩, 5, 0⟩] none
        none).mouse_action .LEFT_CLICK_DOWN ⟨0, 0⟩
      = (Scene.mk [⟨0, ⟨0, 0⟩, 10, 0⟩, ⟨1, ⟨0, 0⟩, 5, 0⟩] none (some 0),
          some true) ∧
    (Scene.mk [⟨0, ⟨0, 0⟩, 10, 0⟩] none none).mouse_action
        .LEFT_CLICK_DOWN ⟨100, 100⟩
      = (Scene.mk [⟨0, ⟨0, 0⟩, 10, 0⟩] none none, none) := by
  constructor
  · have h := (press_hit_insertion_order
        (Scene.mk [⟨0, ⟨0, 0⟩, 10, 0⟩, ⟨1, ⟨0, 0⟩, 5, 0⟩] none none)
        ⟨0, 0⟩ rfl).1 [] ⟨0, ⟨0, 0⟩, 10, 0⟩ [⟨1, ⟨0, 0⟩, 5, 0⟩] rfl
        (by simp) (by rw [Shape.contains_iff]; norm_num)
    simpa using h
  · have h := (press_hit_insertion_order
        (Scene.mk [⟨0, ⟨0, 0⟩, 10, 0⟩] none none) ⟨100, 100⟩ rfl).2
        (by
          intro s hs
          simp only [List.mem_singleton] at hs
          subst hs
          rw [Shape.contains_iff]
          norm_num)
    simpa using h

/-- C4: dragging is relative.  With a selection and no drag session, the
first drag event only anchors — it creates the session at the current
pointer position and performs no translation.  With an existing session,
a drag event translates the dragged shape's center in place by exactly
`new_pos - last_known_pos` and updates `last_known_pos` to `new_pos`.
Consequently a whole drag from anchor `q` through positions `qs` moves
the center by exactly `(last position) - q`, never snapping the center to
the pointer. -/
theorem drag_is_relative (sc : Scene) (i : ℕ) (pos : Vec2)
    (hsel : sc.selected = some i) :
    (sc.draggable = none →
        sc.mouse_action .LEFT_CLICK_DRAG pos
          = ({ sc with draggable := some ⟨pos, i⟩ }, none))
  ∧ (∀ d l1 A l2, sc.draggable = some d → sc.shapes = l1 ++ A :: l2 →
        A.id = d.shape → (∀ s ∈ l1, s.id ≠ d.shape) →
        sc.mouse_action .LEFT_CLICK_DRAG pos
          = ({ sc with
                shapes := l1 ++ A.translate (pos.sub d.current_pos) :: l2,
                draggable := some ⟨pos, d.shape⟩ }, none))
  ∧ (∀ l1 A l2 (q : Vec2) (qs : List Vec2), A.id = i →
        (∀ s ∈ l1, s.id ≠ i) →
        dragSteps ⟨l1 ++ A :: l2, none, some i⟩ (q :: qs)
          = ⟨l1 ++ A.translate ((qs.getLastD q).sub q) :: l2,
              some ⟨qs.getLastD q, i⟩, some i⟩) := by
  refine ⟨?_, ?_, ?_⟩
  · intro hdrag
    simp [Scene.mouse_action, hsel, hdrag]
  · intro d l1 A l2 hd hsh hA h1
    simp [Scene.mouse_action, hsel, hd, Draggable.work, hsh,
      translateFirst_append h1 hA]
  · intro l1 A l2 q qs hA h1
    have hanchor :
        ((Scene.mk (l1 ++ A :: l2) none (some i)).mouse_action
            .LEFT_CLICK_DRAG q).1
          = ⟨l1 ++ A :: l2, some ⟨q, i⟩, some i⟩ := by
      simp [Scene.mouse_action]
    calc dragSteps ⟨l1 ++ A :: l2, none, some i⟩ (q :: qs)
        = dragSteps ⟨l1 ++ A :: l2, some ⟨q, i⟩, some i⟩ qs := by
          simp only [dragSteps, List.foldl_cons, hanchor]
      _ = ⟨l1 ++ A.translate ((qs.getLastD q).sub q) :: l2,
            some ⟨qs.getLastD q, i⟩, some i⟩ :=
          dragSteps_translate qs l1 l2 A i q hA h1

/-- C4 (witness): the spec's own scenario.  Registry `[Shape(id 0, center
(55,55), r 40)]` with the shape selected: a first drag to `(70,70)` only
anchors (center still `(55,55)`), a second drag to `(80,85)` applies the
delta `(10,15)` and moves the center to `(65,70)`. -/
theorem drag_is_relative_witness :
    dragSteps ⟨[⟨0, ⟨55, 55⟩, 40, 0⟩], none, some 0⟩ [⟨70, 70⟩]
      = ⟨[⟨0, ⟨55, 55⟩, 40, 0⟩], some ⟨⟨70, 70⟩, 0⟩, some 0⟩ ∧
    dragSteps ⟨[⟨0, ⟨55, 55⟩, 40, 0⟩], none, some 0⟩ [⟨70, 70⟩, ⟨80, 85⟩]
      = ⟨[⟨0, ⟨65, 70⟩, 40, 0⟩], some ⟨⟨80, 85⟩, 0⟩, some 0⟩ := by
  constructor
  · have h := (drag_is_relative ⟨[⟨0, ⟨55, 55⟩, 40, 0⟩], none, some 0⟩ 0
        ⟨0, 0⟩ rfl).2.2 [] ⟨0, ⟨55, 55⟩, 40, 0⟩ [] ⟨70, 70⟩ [] rfl (by simp)
    simpa [Shape.translate_self_sub] using h
  · have h := (drag_is_relative ⟨[⟨0, ⟨55, 55⟩, 40, 0⟩], none, some 0⟩ 0
        ⟨0, 0⟩ rfl).2.2 [] ⟨0, ⟨55, 55⟩, 40, 0⟩ [] ⟨70, 70⟩ [⟨80, 85⟩] rfl
        (by simp)
    simp only [List.nil_append] at h
    rw [h]
    norm_num [Shape.translate, Vec2.translate, Vec2.sub,
      List.getLastD_cons, List.getLastD_nil]

/-- C2 (counterexample): removing a shape id that is not in the registry is
not a no-op — `Scene.remove_shape` delegates to `list.remove`, which raises
`ValueError` (modelled by a `none` result) instead of returning the
registry unchanged.  Concretely, removing id `1` from a registry holding
only id `0` raises. -/
theorem remove_absent_raises :
    (Scene.mk [⟨0, ⟨0, 0⟩, 10, 0⟩] none none).remove_shape 1 = none := by
  decide

/-- C2 (amended): `remove_shape` on an id with no matching registry entry
raises `ValueError` (a `none` result) and mutates nothing; on a present id
it removes exactly the first matching entry, leaving the rest of the
sequence unchanged. -/
theorem remove_shape_raises_or_removes_first (sc : Scene) (i : ℕ) :
    ((∀ s ∈ sc.shapes, s.id ≠ i) → sc.remove_shape i = none)
  ∧ (∀ l1 A l2, sc.shapes = l1 ++ A :: l2 → (∀ s ∈ l1, s.id ≠ i) →
      A.id = i → sc.remove_shape i = some { sc with shapes := l1 ++ l2 }) := by
  constructor
  · intro h
    simp [Scene.remove_shape, removeFirst_eq_none.2 h]
  · intro l1 A l2 hsh h1 hA
    simp [Scene.remove_shape, hsh, removeFirst_append h1 hA]

/-- C2 (witness): concrete runs of both branches of the amended claim. -/
theorem remove_shape_raises_or_removes_first_witness :
    (Scene.mk [⟨5, ⟨1, 2⟩, 3, 0⟩] none none).remove_shape 7 = none ∧
    (Scene.mk [⟨5, ⟨1, 2⟩, 3, 0⟩, ⟨7, ⟨4, 4⟩, 2, 0⟩] none none).remove_shape 7
      = some (Scene.mk [⟨5, ⟨1, 2⟩, 3, 0⟩] none none) :=
  ⟨(remove_shape_raises_or_removes_first (Scene.mk [⟨5, ⟨1, 2⟩, 3, 0⟩] none none) 7).1
      (by decide),
   by
     have h := (remove_shape_raises_or_removes_first
         (Scene.mk [⟨5, ⟨1, 2⟩, 3, 0⟩, ⟨7, ⟨4, 4⟩, 2, 0⟩] none none) 7).2
       [⟨5, ⟨1, 2⟩, 3, 0⟩] ⟨7, ⟨4, 4⟩, 2, 0⟩ [] rfl (by decide) rfl
     simpa using h⟩

/-- C3 (counterexample): removing the shape that is currently selected and
being dragged does not clear the session state — the resulting scene has an
empty registry yet still holds `selected = some 0` and a drag record
referencing id `0`, a dangling reference surviving past the removal. -/
theorem remove_selected_keeps_dangling_reference :
    (Scene.mk [⟨0, ⟨0, 0⟩, 10, 0⟩] (some ⟨⟨0, 0⟩, 0⟩) (some 0)).remove_shape 0
      = some (Scene.mk [] (some ⟨⟨0, 0⟩, 0⟩) (some 0)) := by
  decide

/-- C3 (amended): `Scene.remove_shape` never touches the selection or the
drag record; removing the selected/dragged shape therefore leaves the
session state holding a reference to a shape absent from the registry
(reconciliation is left to external callers and never happens in this
code). -/
theorem remove_shape_never_touches_session (sc : Scene) (i : ℕ) (sc' : Scene)
    (h : sc.remove_shape i = some sc') :
    sc'.selected = sc.selected ∧ sc'.draggable = sc.draggable := by
  unfold Scene.remove_shape at h
  rcases Option.map_eq_some'.1 h with ⟨l, -, rfl⟩
  exact ⟨rfl, rfl⟩

/-- C3 (witness): a concrete removal of the selected, dragged shape whose
session state survives unchanged. -/
theorem remove_shape_never_touches_session_witness :
    (Scene.mk [] (some ⟨⟨3, 4⟩, 2⟩) (some 2)).selected
        = (Scene.mk [⟨2, ⟨9, 9⟩, 1, 0⟩] (some ⟨⟨3, 4⟩, 2⟩) (some 2)).selected ∧
    (Scene.mk [] (some ⟨⟨3, 4⟩, 2⟩) (some 2)).draggable
        = (Scene.mk [⟨2, ⟨9, 9⟩, 1, 0⟩] (some ⟨⟨3, 4⟩, 2⟩) (some 2)).draggable :=
  remove_shape_never_touches_session
    (Scene.mk [⟨2, ⟨9, 9⟩, 1, 0⟩] (some ⟨⟨3, 4⟩, 2⟩) (some 2)) 2
    (Scene.mk [] (some ⟨⟨3, 4⟩, 2⟩) (some 2)) (by decide)

/-- C5: a release event discards the drag session and the selection and
yields the Idle state (no selection, no drag, registry untouched), and a
second consecutive release is a no-op: it returns the very same state (and
Python's `None`). -/
theorem release_discards_session_and_idempotent (sc : Scene) (p q : Vec2) :
    (sc.mouse_action .LEFT_CLICK_UP p).1.selected = none
  ∧ (sc.mouse_action .LEFT_CLICK_UP p).1.draggable = none
  ∧ (sc.mouse_action .LEFT_CLICK_UP p).1.shapes = sc.shapes
  ∧ ((sc.mouse_action .LEFT_CLICK_UP p).1.mouse_action .LEFT_CLICK_UP q)
      = ((sc.mouse_action .LEFT_CLICK_UP p).1, none) :=
  ⟨rfl, rfl, rfl, rfl⟩

theorem assignPositions_length (sx y : ℤ) :
    ∀ (l : List Button) (j : ℕ),
      (assignPositions sx y j l).length = l.length := by
  intro l
  induction l with
  | nil => intro j; rfl
  | cons b rest ih => intro j; simp [assignPositions, ih]

theorem assignPositions_get (sx y : ℤ) :
    ∀ (l : List Button) (j k : ℕ),
      (assignPositions sx y j l).get? k
        = (l.get? k).map (fun b =>
            { b with pos :=
                ⟨((sx + ((j + k : ℕ) : ℤ) * (BUTTON_SIZE + BUTTON_MARGIN)
                    : ℤ) : ℚ),
                 ((y : ℤ) : ℚ)⟩ }) := by
  intro l
  induction l with
  | nil => intro j k; simp [assignPositions]
  | cons b rest ih =>
      intro j k
      cases k with
      | zero => simp [assignPositions]
      | succ k' =>
          simp only [assignPositions, List.get?_cons_succ]
          rw [ih (j + 1) k']
          have hjk : j + 1 + k' = j + (k' + 1) := by omega
          rw [hjk]

theorem create_button_positions_get (btns : List Button) (k : ℕ) :
    (create_button_positions btns).get? k
      = (btns.get? k).map (fun b =>
          { b with pos :=
              ⟨((Int.fdiv (WIDTH - (BUTTON_SIZE * btns.length
                    + BUTTON_MARGIN * (btns.length + 1))) 2
                  + (k : ℤ) * (BUTTON_SIZE + BUTTON_MARGIN) : ℤ) : ℚ),
               ((Int.fdiv (UI_TOP_BAR_HEIGHT - BUTTON_SIZE) 2 : ℤ) : ℚ)⟩ }) := by
  have h : create_button_positions btns
      = assignPositions
          (Int.fdiv (WIDTH - (BUTTON_SIZE * (btns.length : ℤ)
            + BUTTON_MARGIN * ((btns.length : ℤ) + 1))) 2)
          (Int.fdiv (UI_TOP_BAR_HEIGHT - BUTTON_SIZE) 2) 0 btns := rfl
  rw [h, assignPositions_get]
  simp

theorem create_button_positions_length (btns : List Button) :
    (create_button_positions btns).length = btns.length :=
  assignPositions_length _ _ btns 0

theorem hitIdx_eq_none {l : List Button} {pos : Vec2} :
    hitIdx l pos = none ↔ ∀ b ∈ l, ¬ b.hit_test pos := by
  induction l with
  | nil => simp [hitIdx]
  | cons b rest ih =>
      by_cases h : b.hit_test pos <;> simp [hitIdx, h, ih]

theorem hitIdx_spec {l : List Button} {pos : Vec2} {i : ℕ}
    (h : hitIdx l pos = some i) :
    ∃ b, l.get? i = some b ∧ b.hit_test pos ∧
      ∀ j, j < i → ∀ c, l.get? j = some c → ¬ c.hit_test pos := by
  induction l generalizing i with
  | nil => simp [hitIdx] at h
  | cons b rest ih =>
      by_cases hb : b.hit_test pos
      · simp only [hitIdx, if_pos hb, Option.some.injEq] at h
        subst h
        exact ⟨b, rfl, hb, fun j hj => absurd hj (Nat.not_lt_zero j)⟩
      · simp only [hitIdx, if_neg hb] at h
        rcases Option.map_eq_some'.1 h with ⟨i', hi', rfl⟩
        obtain ⟨c, hc, hct, hmin⟩ := ih hi'
        refine ⟨c, by simpa using hc, hct, ?_⟩
        intro j hj d hd
        cases j with
        | zero =>
            simp only [List.get?_cons_zero, Option.some.injEq] at hd
            subst hd
            exact hb
        | succ j' =>
            exact hmin j' (by omega) d (by simpa using hd)

/-- C6: on a press, the toolbar's buttons are hit-tested in toolbar order
before any scene processing.  When some button matches, the first matching
one is toggled and the scene — hence the Interaction State Machine — is
never consulted, no matter what shapes lie under the point; only when no
button matches is the press forwarded to `Scene.mouse_action`. -/
theorem toolbar_precedence (da : DrawArea) (fresh : ℕ) (pos : Vec2) :
    (∀ i, da.toolbar.hit_test pos = some i →
        (da.mouse_button_callback fresh .left .press pos).scene = da.scene ∧
        (da.mouse_button_callback fresh .left .press pos).toolbar.buttons
          = clickAt da.toolbar.buttons i ∧
        ∃ b, da.toolbar.buttons.get? i = some b ∧ b.hit_test pos ∧
          ∀ j, j < i → ∀ c, da.toolbar.buttons.get? j = some c →
            ¬ c.hit_test pos)
  ∧ ((∃ b ∈ da.toolbar.buttons, b.hit_test pos) →
        (da.toolbar.hit_test pos).isSome)
  ∧ (da.toolbar.hit_test pos = none →
        (∀ b ∈ da.toolbar.buttons, ¬ b.hit_test pos) ∧
        da.mouse_button_callback fresh .left .press pos
          = { da with
              scene := (da.scene.mouse_action .LEFT_CLICK_DOWN pos).1 }) := by
  refine ⟨?_, ?_, ?_⟩
  · intro i hi
    refine ⟨?_, ?_, hitIdx_spec hi⟩
    · simp [DrawArea.mouse_button_callback, hi]
    · simp [DrawArea.mouse_button_callback, hi]
  · rintro ⟨b, hb, hbt⟩
    rcases hcase : da.toolbar.hit_test pos with - | i
    · exact absurd hbt (hitIdx_eq_none.1 hcase b hb)
    · simp
  · intro hnone
    refine ⟨hitIdx_eq_none.1 hnone, ?_⟩
    simp [DrawArea.mouse_button_callback, hnone]

/-- C6 (witness): in the source's own toolbar configuration a press at
`(291, 6)` lies inside the first button's square *and* inside a circle of
radius 40 centered there, yet the scene is left untouched — the toolbar
consumed the event. -/
theorem toolbar_precedence_witness :
    (DrawArea.mouse_button_callback
        (DrawArea.mk ⟨[⟨0, ⟨291, 6⟩, 40, 0⟩], none, none⟩
          (Toolbar.init ⟨0, 448⟩ [Button.init 20 200, Button.init 20 200]))
        9 .left .press ⟨291, 6⟩).scene
      = ⟨[⟨0, ⟨291, 6⟩, 40, 0⟩], none, none⟩ ∧
    (Shape.mk 0 ⟨291, 6⟩ 40 0).contains ⟨291, 6⟩ :=
  ⟨((toolbar_precedence
      (DrawArea.mk ⟨[⟨0, ⟨291, 6⟩, 40, 0⟩], none, none⟩
        (Toolbar.init ⟨0, 448⟩ [Button.init 20 200, Button.init 20 200]))
      9 ⟨291, 6⟩).1 0 (by
        have hb : Toolbar.init ⟨0, 448⟩ [Button.init 20 200, Button.init 20 200]
            = ⟨⟨0, 448⟩, [⟨⟨291, 6⟩, 20, 200, false, false⟩,
                ⟨⟨317, 6⟩, 20, 200, false, false⟩]⟩ := by decide
        show Toolbar.hit_test _ _ = _
        rw [hb]
        norm_num [Toolbar.hit_test, hitIdx, Button.hit_test])).1,
   by rw [Shape.contains_iff]; norm_num⟩

/-- C8 (counterexample): with the construction-time configuration of the
source (two buttons of side 20, margin 6, container width 640) the layout
places the buttons at x = 291 and x = 317, so the row of buttons spans
[291, 337]: the gap left of the row is 291 while the gap right of it is
640 − 337 = 303.  The row is therefore *not* centered horizontally within
the container (the discrepancy, 12 = 2·margin, exceeds any floor-rounding
slack). -/
theorem toolbar_row_not_centered :
    (Toolbar.init ⟨0, 448⟩ [Button.init 20 200, Button.init 20 200]).buttons
      = [⟨⟨291, 6⟩, 20, 200, false, false⟩, ⟨⟨317, 6⟩, 20, 200, false, false⟩]
  ∧ (291 : ℚ) ≠ 640 - (317 + 20) := by
  constructor
  · decide
  · norm_num

/-- C8 (amended): the layout is computed exactly once, by construction
(`Toolbar.init` runs `_create_button_positions` and nothing else), from
the button count, `BUTTON_SIZE`, `BUTTON_MARGIN` and the container width
`WIDTH`: button `k` sits at
`x = (WIDTH - (SIZE·n + MARGIN·(n+1))) // 2 + k·(SIZE + MARGIN)` (floor
division), a left-to-right row with exactly one margin between adjacent
buttons.  The quantity Python centers is the block of `n` buttons plus
`n + 1` margins *anchored at the first button's left edge*, so the visible
row is not centered: the right-hand gap exceeds the left-hand gap by
exactly `2·MARGIN` plus the floor-rounding parity term. -/
theorem toolbar_layout_once_with_margin (p : Vec2) (btns : List Button) :
    (Toolbar.init p btns).pos = p
  ∧ (Toolbar.init p btns).buttons.length = btns.length
  ∧ (∀ k b, btns.get? k = some b →
      (Toolbar.init p btns).buttons.get? k = some { b with pos :=
        ⟨((Int.fdiv (WIDTH - (BUTTON_SIZE * btns.length
              + BUTTON_MARGIN * (btns.length + 1))) 2
            + (k : ℤ) * (BUTTON_SIZE + BUTTON_MARGIN) : ℤ) : ℚ),
         ((Int.fdiv (UI_TOP_BAR_HEIGHT - BUTTON_SIZE) 2 : ℤ) : ℚ)⟩ })
  ∧ (∀ k b b', (Toolbar.init p btns).buttons.get? k = some b →
      (Toolbar.init p btns).buttons.get? (k + 1) = some b' →
      b'.pos.x - (b.pos.x + (BUTTON_SIZE : ℚ)) = (BUTTON_MARGIN : ℚ))
  ∧ (∀ n, btns.length = n + 1 →
      ∀ bf bl, (Toolbar.init p btns).buttons.get? 0 = some bf →
        (Toolbar.init p btns).buttons.get? n = some bl →
        ((WIDTH : ℚ) - (bl.pos.x + (BUTTON_SIZE : ℚ))) - bf.pos.x
          = 2 * (BUTTON_MARGIN : ℚ)
            + ((Int.fmod (WIDTH - (BUTTON_SIZE * btns.length
                + BUTTON_MARGIN * (btns.length + 1))) 2 : ℤ) : ℚ)) := by
  have hbtns : (Toolbar.init p btns).buttons = create_button_positions btns :=
    rfl
  refine ⟨rfl, ?_, ?_, ?_, ?_⟩
  · rw [hbtns]; exact create_button_positions_length btns
  · intro k b hk
    rw [hbtns, create_button_positions_get, hk, Option.map_some']
  · intro k b b' hb hb'
    rw [hbtns, create_button_positions_get] at hb hb'
    rcases Option.map_eq_some'.1 hb with ⟨c, -, rfl⟩
    rcases Option.map_eq_some'.1 hb' with ⟨c', -, rfl⟩
    push_cast
    ring
  · intro n hlen bf bl hbf hbl
    rw [hbtns, create_button_positions_get] at hbf hbl
    rcases Option.map_eq_some'.1 hbf with ⟨c, -, rfl⟩
    rcases Option.map_eq_some'.1 hbl with ⟨c', -, rfl⟩
    have hfd := Int.fdiv_add_fmod
      (WIDTH - (BUTTON_SIZE * btns.length
        + BUTTON_MARGIN * (btns.length + 1))) 2
    have hfdq : (2 : ℚ) * ((Int.fdiv (WIDTH - (BUTTON_SIZE * btns.length
          + BUTTON_MARGIN * (btns.length + 1))) 2 : ℤ) : ℚ)
        + ((Int.fmod (WIDTH - (BUTTON_SIZE * btns.length
            + BUTTON_MARGIN * (btns.length + 1))) 2 : ℤ) : ℚ)
        = ((WIDTH - (BUTTON_SIZE * btns.length
            + BUTTON_MARGIN * (btns.length + 1)) : ℤ) : ℚ) := by
      exact_mod_cast hfd
    rw [hlen] at hfdq ⊢
    simp only [WIDTH, BUTTON_SIZE, BUTTON_MARGIN]
    simp only [WIDTH, BUTTON_SIZE, BUTTON_MARGIN] at hfdq
    push_cast at hfdq ⊢
    linarith [hfdq]

/-- C8 (witness): the amended layout claim evaluated on the source's own
toolbar (two buttons): positions (291, 6) and (317, 6), adjacent gap
exactly one margin, and a right gap exceeding the left gap by 2·margin
(the parity term is 0 here). -/
theorem toolbar_layout_once_with_margin_witness :
    (Toolbar.init ⟨0, 448⟩ [Button.init 20 200, Button.init 20 200]).buttons.get? 0
        = some ⟨⟨291, 6⟩, 20, 200, false, false⟩
  ∧ (Toolbar.init ⟨0, 448⟩ [Button.init 20 200, Button.init 20 200]).buttons.get? 1
        = some ⟨⟨317, 6⟩, 20, 200, false, false⟩
  ∧ (317 : ℚ) - ((291 : ℚ) + (BUTTON_SIZE : ℚ)) = (BUTTON_MARGIN : ℚ)
  ∧ ((WIDTH : ℚ) - ((317 : ℚ) + (BUTTON_SIZE : ℚ))) - (291 : ℚ)
      = 2 * (BUTTON_MARGIN : ℚ)
        + ((Int.fmod (WIDTH - (BUTTON_SIZE * ([Button.init 20 200,
            Button.init 20 200].length)
            + BUTTON_MARGIN * (([Button.init 20 200,
                Button.init 20 200].length) + 1))) 2 : ℤ) : ℚ) := by
  have h0 : (Toolbar.init ⟨0, 448⟩ [Button.init 20 200,
      Button.init 20 200]).buttons.get? 0
        = some ⟨⟨291, 6⟩, 20, 200, false, false⟩ := by
    have h := (toolbar_layout_once_with_margin ⟨0, 448⟩
        [Button.init 20 200, Button.init 20 200]).2.2.1 0
        (Button.init 20 200) rfl
    rw [h]; decide
  have h1 : (Toolbar.init ⟨0, 448⟩ [Button.init 20 200,
      Button.init 20 200]).buttons.get? 1
        = some ⟨⟨317, 6⟩, 20, 200, false, false⟩ := by
    have h := (toolbar_layout_once_with_margin ⟨0, 448⟩
        [Button.init 20 200, Button.init 20 200]).2.2.1 1
        (Button.init 20 200) rfl
    rw [h]; decide
  refine ⟨h0, h1, ?_, ?_⟩
  · exact (toolbar_layout_once_with_margin ⟨0, 448⟩
      [Button.init 20 200, Button.init 20 200]).2.2.2.1 0
      ⟨⟨291, 6⟩, 20, 200, false, false⟩
      ⟨⟨317, 6⟩, 20, 200, false, false⟩ h0 h1
  · exact (toolbar_layout_once_with_margin ⟨0, 448⟩
      [Button.init 20 200, Button.init 20 200]).2.2.2.2 1 rfl
      ⟨⟨291, 6⟩, 20, 200, false, false⟩
      ⟨⟨317, 6⟩, 20, 200, false, false⟩ h0 h1

/-- C7: both hit-test predicates are modelled as pure functions (they
depend on nothing but the shape/button and the query point, and mutate
nothing), and both are boundary inclusive: circle containment holds
exactly when the squared Euclidean distance to the center is at most the
squared radius — in particular the point at distance exactly `radius`
straight right of the center is contained — and square containment is
exactly the inclusive interval test `[origin, origin + size]` on both
axes — in particular the far corner `origin + size` is contained. -/
theorem hit_predicates_boundary_inclusive (s : Shape) (p : Vec2)
    (b : Button) (q : Vec2) (hr : 0 ≤ s.radius) (hb : 0 ≤ b.size) :
    (s.contains p ↔
        (p.x - s.pos.x) ^ 2 + (p.y - s.pos.y) ^ 2 ≤ s.radius ^ 2)
  ∧ s.contains ⟨s.pos.x + s.radius, s.pos.y⟩
  ∧ (b.hit_test q ↔
        (b.pos.x ≤ q.x ∧ q.x ≤ b.pos.x + b.size ∧
         b.pos.y ≤ q.y ∧ q.y ≤ b.pos.y + b.size))
  ∧ b.hit_test ⟨b.pos.x + b.size, b.pos.y + b.size⟩ := by
  refine ⟨?_, ?_, Iff.rfl, ?_⟩
  · rw [Shape.contains_iff]
    exact and_iff_right hr
  · rw [Shape.contains_iff]
    exact ⟨hr, le_of_eq (by ring)⟩
  · exact ⟨le_add_of_nonneg_right hb, le_refl _,
      le_add_of_nonneg_right hb, le_refl _⟩

/-- C7 (witness): the boundary point of a concrete circle (center `(1,2)`,
radius `3`, query `(4,2)` at distance exactly `3`) and the far corner of a
concrete button square are both contained. -/
theorem hit_predicates_boundary_inclusive_witness :
    (0 : ℚ) ≤ 3 ∧ (0 : ℚ) ≤ 5 ∧
    (Shape.mk 0 ⟨1, 2⟩ 3 0).contains ⟨1 + 3, 2⟩ ∧
    (Button.mk ⟨10, 20⟩ 5 0 false false).hit_test ⟨10 + 5, 20 + 5⟩ :=
  ⟨by norm_num, by norm_num,
   (hit_predicates_boundary_inclusive (Shape.mk 0 ⟨1, 2⟩ 3 0) ⟨0, 0⟩
      (Button.mk ⟨10, 20⟩ 5 0 false false) ⟨0, 0⟩ (by norm_num)
      (by norm_num)).2.1,
   (hit_predicates_boundary_inclusive (Shape.mk 0 ⟨1, 2⟩ 3 0) ⟨0, 0⟩
      (Button.mk ⟨10, 20⟩ 5 0 false false) ⟨0, 0⟩ (by norm_num)
      (by norm_num)).2.2.2⟩

/-- Each scene event preserves the session-consistency invariant. -/
theorem sessionInv_step (sc : Scene) (e : SceneEvent) (h : SessionInv sc) :
    SessionInv (SceneEvent.step sc e) := by
  cases e with
  | add s => exact fun d hd => h d hd
  | remove i =>
      have hst : SceneEvent.step sc (.remove i) = sc ∨
          ∃ l, SceneEvent.step sc (.remove i) = { sc with shapes := l } := by
        rcases hrf : removeFirst sc.shapes i with - | l
        · left; simp [SceneEvent.step, Scene.remove_shape, hrf]
        · right; exact ⟨l, by simp [SceneEvent.step, Scene.remove_shape, hrf]⟩
      rcases hst with hst | ⟨l, hst⟩ <;> rw [hst] <;> exact fun d hd => h d hd
  | mouse a p =>
      cases a with
      | LEFT_CLICK_UP =>
          intro d hd
          simp [SceneEvent.step, Scene.mouse_action] at hd
      | RIGHT_CLICK_DOWN => exact fun d hd => h d hd
      | LEFT_CLICK_DOWN =>
          rcases hsel : sc.selected with - | j
          · rcases hhit : hitLoop sc.shapes p with - | i
            · have hst : SceneEvent.step sc (.mouse .LEFT_CLICK_DOWN p) = sc := by
                simp [SceneEvent.step, Scene.mouse_action, hsel, hhit]
              rw [hst]; exact h
            · intro d hd
              have hd' : sc.draggable = some d := by
                simpa [SceneEvent.step, Scene.mouse_action, hsel, hhit] using hd
              have := h d hd'
              rw [hsel] at this
              exact absurd this (by simp)
          · have hst : SceneEvent.step sc (.mouse .LEFT_CLICK_DOWN p) = sc := by
              simp [SceneEvent.step, Scene.mouse_action, hsel]
            rw [hst]; exact h
      | LEFT_CLICK_DRAG =>
          rcases hsel : sc.selected with - | j
          · have hst : SceneEvent.step sc (.mouse .LEFT_CLICK_DRAG p) = sc := by
              simp [SceneEvent.step, Scene.mouse_action, hsel]
            rw [hst]; exact h
          · rcases hdrag : sc.draggable with - | d0
            · intro d hd
              have hd' : (some (Draggable.mk p j) : Option Draggable) = some d := by
                simpa [SceneEvent.step, Scene.mouse_action, hsel, hdrag] using hd
              rcases hd' with ⟨⟩
              simp [SceneEvent.step, Scene.mouse_action, hsel, hdrag]
            · intro d hd
              have hd' : (some (Draggable.mk p d0.shape) : Option Draggable)
                  = some d := by
                simpa [SceneEvent.step, Scene.mouse_action, hsel, hdrag,
                  Draggable.work] using hd
              rcases hd' with ⟨⟩
              have hsel0 := h d0 hdrag
              simpa [SceneEvent.step, Scene.mouse_action, hsel, hdrag,
                Draggable.work] using hsel0

/-- C9: the session invariant — an active drag record exists only while a
selection exists, and references the selected shape — holds in the initial
state and after every sequence of scene events (press/drag/release
gestures, shape additions and removals). -/
theorem drag_only_with_selection (evs : List SceneEvent) :
    SessionInv Scene.init ∧
      SessionInv (evs.foldl SceneEvent.step Scene.init) := by
  have hinit : SessionInv Scene.init := fun d hd => by cases hd
  refine ⟨hinit, ?_⟩
  have hall : ∀ sc, SessionInv sc →
      SessionInv (evs.foldl SceneEvent.step sc) := by
    induction evs with
    | nil => exact fun sc h => h
    | cons e rest ih => exact fun sc h => ih _ (sessionInv_step sc e h)
  exact hall Scene.init hinit

/-- C10: when a selection already exists, a press forwarded to the state
machine is a complete no-op: the scene (registry, selection, drag record)
is returned unchanged and the Python return value is `None`, even when the
press point lies inside another shape. -/
theorem press_with_selection_is_noop (sc : Scene) (pos : Vec2) (i : ℕ)
    (hsel : sc.selected = some i) :
    sc.mouse_action .LEFT_CLICK_DOWN pos = (sc, none) := by
  simp [Scene.mouse_action, hsel]

/-- C10 (witness): with shape `0` selected, a press at the center of shape
`1` (whose containment test succeeds there) changes nothing. -/
theorem press_with_selection_is_noop_witness :
    (Shape.mk 1 ⟨100, 100⟩ 10 0).contains ⟨100, 100⟩ ∧
    (Scene.mk [⟨0, ⟨0, 0⟩, 10, 0⟩, ⟨1, ⟨100, 100⟩, 10, 0⟩] none
        (some 0)).mouse_action .LEFT_CLICK_DOWN ⟨100, 100⟩
      = (Scene.mk [⟨0, ⟨0, 0⟩, 10, 0⟩, ⟨1, ⟨100, 100⟩, 10, 0⟩] none
          (some 0), none) :=
  ⟨by rw [Shape.contains_iff]; norm_num,
   press_with_selection_is_noop _ ⟨100, 100⟩ 0 rfl⟩

end VectorGraphics
